import Mathlib

/-!
Shallow embedding of the zkID OpenID authentication module
(types/src/zkid.rs) of the aptos-core repository, together with proofs
about its verification functions.

External collaborators of the module (the poseidon_bn254 hashing-to-field
primitives, the base64 and serde_json crates, the bcs canonical encoding,
and the transaction-authenticator plumbing) are modelled from the spec and
are marked as such in their doc comments.  The multi-input algebraic hash
itself is kept as an explicit function parameter hashFn, since the spec
treats it as an external deterministic primitive used only through its
input/output contract.
-/

set_option maxHeartbeats 1000000

/-- Policy constant MAX_EXPIRY_HORIZON_SECS (zkid.rs line 52): how far past
the JWT issued-at time the ephemeral public key expiry may be set. -/
def MAX_EXPIRY_HORIZON_SECS : Nat := 1728000000

/-- Policy constant MAX_EPK_BYTES (zkid.rs): maximum byte length of the
ephemeral public key encoding. -/
def MAX_EPK_BYTES : Nat := 93

/-- Policy constant MAX_AUD_VAL_BYTES (zkid.rs). -/
def MAX_AUD_VAL_BYTES : Nat := 248

/-- Policy constant MAX_UID_KEY_BYTES (zkid.rs). -/
def MAX_UID_KEY_BYTES : Nat := 248

/-- Policy constant MAX_UID_VAL_BYTES (zkid.rs). -/
def MAX_UID_VAL_BYTES : Nat := 248

/-- Modulus of the u64 machine-integer type; the unguarded u64 addition in
verify_jwt_claims wraps modulo this value, as in release-mode Rust. -/
def U64_MOD : Nat := 2 ^ 64

/-- Modelled from the spec: the order of the BN254 scalar field over which
the external algebraic (poseidon) hash works; field elements are naturals
reduced modulo this prime. -/
def bn254FrOrder : Nat :=
  21888242871839275222246405745257275088548364400416034343698204186575808495617

/-- Modelled from the spec: serde_json's Value type, covering the behaviour
the claims code relies on: as_bool answers only on booleans and as_str only
on strings. -/
inductive Json where
  | null : Json
  | bool (b : Bool) : Json
  | num (n : Int) : Json
  | str (s : String) : Json
  | arr (l : List Json) : Json
  | obj (l : List (String × Json)) : Json

/-- Modelled from the spec: serde_json Value::as_bool. -/
def Json.as_bool : Json → Option Bool
  | .bool b => some b
  | _ => none

/-- Modelled from the spec: serde_json Value::as_str. -/
def Json.as_str : Json → Option String
  | .str s => some s
  | _ => none

/-- Required and optional OIDC claims of the JWT payload (struct OidcClaims
in zkid.rs); iat is a u64 number of seconds. -/
structure OidcClaims where
  iss : String
  aud : String
  sub : String
  nonce : String
  iat : Nat
  email : Option String
  email_verified : Option Json

/-- Parsed JWT payload (struct Claims in zkid.rs): the OIDC claims plus the
remaining string-keyed claims; the BTreeMap is modelled as an association
list queried by lookup. -/
structure Claims where
  oidc_claims : OidcClaims
  additional_claims : List (String × Json)

/-- Error outcomes of the verification functions.  The source reports errors
as anyhow strings produced at distinct ensure!/context sites; each such site
is given one constructor here. -/
inductive VerifyErr where
  | expiryHorizon
  | issMismatch
  | uidKeyInvalid
  | emailVerifiedMissing
  | emailVerifiedNotTrue
  | emailMissing
  | claimMissing (k : String)
  | claimNotAString (k : String)
  | hashingError
  | encodingError
  | idcMismatch
  | nonceMismatch
  | expired
deriving DecidableEq

/-- Claims::get_uid_val (zkid.rs lines 194-225): resolves the user-identifier
value named by uid_key, enforcing the email_verified policy for the "email"
key; the 'email_verified' claim may be a boolean or a boolean-as-a-string. -/
def Claims.get_uid_val (c : Claims) (uid_key : String) : Except VerifyErr String :=
  if uid_key = "email" then
    match c.oidc_claims.email_verified with
    | none => .error .emailVerifiedMissing
    | some email_verified =>
      let email_verified_as_bool := email_verified.as_bool.getD false
      let email_verified_as_str := email_verified.as_str.getD "false"
      if email_verified_as_bool || (email_verified_as_str == "true") then
        match c.oidc_claims.email with
        | some e => .ok e
        | none => .error .emailMissing
      else .error .emailVerifiedNotTrue
  else if uid_key = "sub" then .ok c.oidc_claims.sub
  else
    match c.additional_claims.lookup uid_key with
    | none => .error (.claimMissing uid_key)
    | some v =>
      match v.as_str with
      | none => .error (.claimNotAString uid_key)
      | some s => .ok s

/-- Little-endian interpretation of a byte list as a natural number. -/
def natFromLe : List Nat → Nat
  | [] => 0
  | b :: t => b + 256 * natFromLe t

/-- Little-endian serialization of a natural number into exactly k bytes
(the canonical uncompressed little-endian form of a field element uses
k = 32). -/
def leBytes : Nat → Nat → List Nat
  | 0, _ => []
  | k + 1, x => x % 256 :: leBytes k (x / 256)

/-- Modelled from the spec: poseidon_bn254::BYTES_PACKED_PER_SCALAR, the
number of bytes packed into one field element; the spec fixes the pepper and
the EPK blinder at 32 bytes, one field element each. -/
def BYTES_PACKED_PER_SCALAR : Nat := 32

/-- Fixed byte length of a Pepper (PEPPER_NUM_BYTES in zkid.rs). -/
def PEPPER_NUM_BYTES : Nat := BYTES_PACKED_PER_SCALAR

/-- Fixed byte length of the EPK blinder (EPK_BLINDER_NUM_BYTES in zkid.rs). -/
def EPK_BLINDER_NUM_BYTES : Nat := BYTES_PACKED_PER_SCALAR

/-- Fixed byte length of a serialized nonce scalar (NONCE_NUM_BYTES). -/
def NONCE_NUM_BYTES : Nat := 32

/-- Fixed byte length of a serialized identity commitment (IDC_NUM_BYTES). -/
def IDC_NUM_BYTES : Nat := 32

/-- Modelled from the spec: poseidon_bn254::pack_bytes_to_one_scalar; fails
if more than BYTES_PACKED_PER_SCALAR bytes are given, otherwise packs the
bytes little-endian into one field element. -/
def pack_bytes_to_one_scalar (bs : List Nat) : Option Nat :=
  if bs.length ≤ BYTES_PACKED_PER_SCALAR then some (natFromLe bs % bn254FrOrder) else none

/-- Modelled from the spec: splitting a byte string into field elements,
BYTES_PACKED_PER_SCALAR bytes per element, little-endian within each chunk. -/
def chunkScalars (bs : List Nat) : List Nat :=
  if h : bs = [] then []
  else natFromLe (bs.take BYTES_PACKED_PER_SCALAR) % bn254FrOrder ::
       chunkScalars (bs.drop BYTES_PACKED_PER_SCALAR)
termination_by bs.length
decreasing_by
  simp only [List.length_drop]
  have h1 : 0 < bs.length := List.length_pos.mpr h
  simp only [BYTES_PACKED_PER_SCALAR]
  omega

/-- Modelled from the spec:
poseidon_bn254::pad_and_pack_bytes_to_scalars_with_len; fails if the input
exceeds max_bytes, otherwise zero-pads it to max_bytes, packs the padded
bytes into field elements and appends the original byte length as a final
domain-separating field element. -/
def pad_and_pack_bytes_to_scalars_with_len (bs : List Nat) (max_bytes : Nat) :
    Option (List Nat) :=
  if bs.length ≤ max_bytes then
    some (chunkScalars (bs ++ List.replicate (max_bytes - bs.length) 0) ++
          [bs.length % bn254FrOrder])
  else none

/-- UTF-8 encoding of one unicode scalar value (the byte representation Rust
strings use). -/
def encodeChar (c : Char) : List Nat :=
  let v := c.toNat
  if v < 0x80 then [v]
  else if v < 0x800 then [0xC0 + v / 64, 0x80 + v % 64]
  else if v < 0x10000 then [0xE0 + v / 4096, 0x80 + v / 64 % 64, 0x80 + v % 64]
  else [0xF0 + v / 262144, 0x80 + v / 4096 % 64, 0x80 + v / 64 % 64, 0x80 + v % 64]

/-- UTF-8 byte encoding of a character list. -/
def utf8Enc : List Char → List Nat
  | [] => []
  | c :: t => encodeChar c ++ utf8Enc t

/-- The UTF-8 bytes of a string, as Rust's str::as_bytes yields them. -/
def strBytes (s : String) : List Nat := utf8Enc s.data

/-- Modelled from the spec: poseidon_bn254::pad_and_hash_string; fails if
the string's UTF-8 encoding exceeds max_bytes, otherwise pads and packs it
and hashes the resulting field elements into one field element with the
multi-input algebraic hash hashFn. -/
def pad_and_hash_string (hashFn : List Nat → Nat) (s : String) (max_bytes : Nat) :
    Option Nat :=
  (pad_and_pack_bytes_to_scalars_with_len (strBytes s) max_bytes).map
    (fun frs => hashFn frs % bn254FrOrder)

/-- Pepper (zkid.rs): fixed-size secret commitment randomness, a
[u8; PEPPER_NUM_BYTES] array modelled as a byte list of that length. -/
structure Pepper where
  bytes : List Nat
deriving DecidableEq

/-- IdCommitment (zkid.rs): the fixed-size serialized output of the identity
commitment hash, a [u8; IDC_NUM_BYTES] array modelled as a byte list. -/
structure IdCommitment where
  bytes : List Nat
deriving DecidableEq

/-- IdCommitment::new_from_preimage (zkid.rs lines 341-362): pad-and-hash
each of the three strings into one field element, pack the pepper into one
field element, hash the four elements in order (aud, uid_key, uid_val,
pepper) and serialize the output little-endian into IDC_NUM_BYTES bytes. -/
def IdCommitment.new_from_preimage (hashFn : List Nat → Nat)
    (aud uid_key uid_val : String) (pepper : Pepper) : Option IdCommitment := do
  let aud_val_hash ← pad_and_hash_string hashFn aud MAX_AUD_VAL_BYTES
  let uid_key_hash ← pad_and_hash_string hashFn uid_key MAX_UID_KEY_BYTES
  let uid_val_hash ← pad_and_hash_string hashFn uid_val MAX_UID_VAL_BYTES
  let pepper_scalar ← pack_bytes_to_one_scalar pepper.bytes
  some ⟨leBytes IDC_NUM_BYTES
    (hashFn [aud_val_hash, uid_key_hash, uid_val_hash, pepper_scalar] % bn254FrOrder)⟩

/-- Modelled from the spec: the ephemeral public key, an external type the
module consumes only through its canonical byte encoding. -/
structure EphemeralPublicKey where
  bytes : List Nat
deriving DecidableEq

/-- Canonical byte encoding of an ephemeral public key. -/
def EphemeralPublicKey.to_bytes (e : EphemeralPublicKey) : List Nat := e.bytes

/-- Modelled from the spec: the ephemeral signature, an external type carried
opaquely inside a ZkIdSignature. -/
structure EphemeralSignature where
  bytes : List Nat
deriving DecidableEq

/-- Modelled from the spec: the RFC 4648 URL-safe base64 alphabet. -/
def base64UrlAlphabet : List Char :=
  (List.range 26).map (fun i => Char.ofNat (65 + i)) ++
  (List.range 26).map (fun i => Char.ofNat (97 + i)) ++
  (List.range 10).map (fun i => Char.ofNat (48 + i)) ++
  ['-', '_']

/-- Character of the base64url alphabet at a given 6-bit index. -/
def b64Char (n : Nat) : Char := base64UrlAlphabet.getD n 'A'

/-- Modelled from the spec: base64url encoding without padding
(base64::encode_config with URL_SAFE_NO_PAD). -/
def base64UrlNoPad : List Nat → List Char
  | [] => []
  | [b0] => [b64Char (b0 / 4), b64Char (b0 % 4 * 16)]
  | [b0, b1] => [b64Char (b0 / 4), b64Char (b0 % 4 * 16 + b1 / 16), b64Char (b1 % 16 * 4)]
  | b0 :: b1 :: b2 :: rest =>
      b64Char (b0 / 4) :: b64Char (b0 % 4 * 16 + b1 / 16) ::
      b64Char (b1 % 16 * 4 + b2 / 64) :: b64Char (b2 % 64) :: base64UrlNoPad rest

/-- OpenIdSig (zkid.rs): the direct (non-ZK) OpenID signature payload.  The
jwt_payload field holds the base64url JSON payload text; its parsed form is
passed separately to verify_jwt_claims because base64url and JSON decoding
are external (base64 and serde_json crates). -/
structure OpenIdSig where
  jwt_sig : String
  jwt_payload : String
  uid_key : String
  epk_blinder : List Nat
  pepper : Pepper
deriving DecidableEq

/-- OpenIdSig::reconstruct_oauth_nonce (zkid.rs lines 142-162): pad-and-pack
the EPK bytes into field elements, append the expiry timestamp as one field
element and the packed blinder as another, hash, serialize the scalar into
NONCE_NUM_BYTES little-endian bytes and base64url-encode without padding. -/
def OpenIdSig.reconstruct_oauth_nonce (hashFn : List Nat → Nat) (s : OpenIdSig)
    (exp_timestamp_secs : Nat) (epk : EphemeralPublicKey) : Option String := do
  let frs ← pad_and_pack_bytes_to_scalars_with_len epk.to_bytes MAX_EPK_BYTES
  let blinder_scalar ← pack_bytes_to_one_scalar s.epk_blinder
  let nonce_fr := hashFn (frs ++ [exp_timestamp_secs % bn254FrOrder, blinder_scalar]) % bn254FrOrder
  some (String.mk (base64UrlNoPad (leBytes NONCE_NUM_BYTES nonce_fr)))

/-- ZkIdPublicKey (zkid.rs): the OIDC provider string together with the
identity commitment. -/
structure ZkIdPublicKey where
  iss : String
  idc : IdCommitment
deriving DecidableEq

/-- Function seconds_from_epoch (zkid.rs lines 433-435).  SystemTime is
modelled as microseconds since UNIX_EPOCH, which is exact for both call
sites (Duration::from_secs here, Duration::from_micros in verify_expiry). -/
def seconds_from_epoch (secs : Nat) : Nat := secs * 1000000

/-- OpenIdSig::verify_jwt_claims (zkid.rs lines 82-132).  The claims
argument is the parse of s.jwt_payload (base64url plus serde_json, external
crates).  The u64 addition iat + MAX_EXPIRY_HORIZON_SECS is unguarded in the
source and wraps modulo 2^64 as in release-mode Rust. -/
def OpenIdSig.verify_jwt_claims (hashFn : List Nat → Nat) (s : OpenIdSig)
    (claims : Claims) (exp_timestamp_secs : Nat) (epk : EphemeralPublicKey)
    (pk : ZkIdPublicKey) : Except VerifyErr Unit :=
  let max_expiration_date :=
    seconds_from_epoch ((claims.oidc_claims.iat + MAX_EXPIRY_HORIZON_SECS) % U64_MOD)
  let expiration_date := seconds_from_epoch exp_timestamp_secs
  if expiration_date < max_expiration_date then
    if claims.oidc_claims.iss = pk.iss then
      if s.uid_key = "sub" ∨ s.uid_key = "email" then
        match claims.get_uid_val s.uid_key with
        | .error e => .error e
        | .ok uid_val =>
          match IdCommitment.new_from_preimage hashFn claims.oidc_claims.aud
              s.uid_key uid_val s.pepper with
          | none => .error .hashingError
          | some idc =>
            if idc = pk.idc then
              match s.reconstruct_oauth_nonce hashFn exp_timestamp_secs epk with
              | none => .error .encodingError
              | some nonce =>
                if nonce = claims.oidc_claims.nonce then .ok ()
                else .error .nonceMismatch
            else .error .idcMismatch
      else .error .uidKeyInvalid
    else .error .issMismatch
  else .error .expiryHorizon

/-- Groth16Zkp (zkid.rs): structural shell of the zero-knowledge proof,
opaque to this module. -/
structure Groth16Zkp where
  a : List String
  b : List (List String)
  c : List String
deriving DecidableEq

/-- ZkpOrOpenIdSig (zkid.rs): tagged choice of the verification path. -/
inductive ZkpOrOpenIdSig where
  | groth16Zkp (z : Groth16Zkp)
  | openIdSig (o : OpenIdSig)
deriving DecidableEq

/-- ZkIdSignature (zkid.rs lines 253-273). -/
structure ZkIdSignature where
  sig : ZkpOrOpenIdSig
  jwt_header : String
  exp_timestamp_secs : Nat
  ephemeral_pubkey : EphemeralPublicKey
  ephemeral_signature : EphemeralSignature
deriving DecidableEq

/-- On-chain clock resource CurrentTimeMicroseconds (an external type; only
its microseconds field is read). -/
structure CurrentTimeMicroseconds where
  microseconds : Nat
deriving DecidableEq

/-- ZkIdSignature::verify_expiry (zkid.rs lines 303-312): compares the block
time in microseconds against the expiry timestamp converted to microseconds. -/
def ZkIdSignature.verify_expiry (s : ZkIdSignature)
    (current_time : CurrentTimeMicroseconds) : Except VerifyErr Unit :=
  let block_time := current_time.microseconds
  let expiry_time := seconds_from_epoch s.exp_timestamp_secs
  if block_time > expiry_time then .error .expired else .ok ()

/-- Modelled from the spec: AnyPublicKey variant tags; only the zkID variant
is distinguished, every other variant is collapsed into one opaque
constructor. -/
inductive AnyPublicKey where
  | zkId (public_key : ZkIdPublicKey)
  | otherVariant (tag : Nat)

/-- Modelled from the spec: AnySignature variant tags, as for AnyPublicKey. -/
inductive AnySignature where
  | zkId (signature : ZkIdSignature)
  | otherVariant (tag : Nat)

/-- Modelled from the spec: one signer slot of a transaction's authenticator
set, producing a public key and a signature. -/
structure SingleKeyAuthenticator where
  public_key : AnyPublicKey
  signature : AnySignature

/-- Function get_zkid_authenticators (zkid.rs lines 408-424).  The
transaction plumbing (to_single_key_authenticators) is external, so the
slot sequence is the input; the source pushes matching pairs onto a vector
in slot order, modelled by a left fold. -/
def get_zkid_authenticators (auths : List SingleKeyAuthenticator) :
    List (ZkIdPublicKey × ZkIdSignature) :=
  auths.foldl (fun acc a =>
    match a.public_key, a.signature with
    | .zkId public_key, .zkId signature => acc ++ [(public_key, signature)]
    | _, _ => acc) []

/-- Modelled from the spec: ULEB128 encoding of a length or enum-variant
index, as the canonical binary encoding (bcs) uses for sequences. -/
def encodeUleb (n : Nat) : List Nat :=
  if h : n < 128 then [n] else (n % 128 + 128) :: encodeUleb (n / 128)
termination_by n
decreasing_by omega

/-- Modelled from the spec: ULEB128 decoding; returns the value and the
remaining input. -/
def parseUleb : List Nat → Option (Nat × List Nat)
  | [] => none
  | b :: t =>
    if b < 128 then some (b, t)
    else
      match parseUleb t with
      | none => none
      | some (m, r) => some (m * 128 + (b - 128), r)

/-- Reading exactly n raw bytes from the input (fixed-size arrays are stored
without a length prefix by the canonical encoding). -/
def parseBytesN (n : Nat) (l : List Nat) : Option (List Nat × List Nat) :=
  if n ≤ l.length then some (l.take n, l.drop n) else none

/-- Modelled from the spec: little-endian fixed-width u64 decoding. -/
def parseU64 (l : List Nat) : Option (Nat × List Nat) :=
  match parseBytesN 8 l with
  | none => none
  | some (bs, r) => some (natFromLe bs, r)

/-- UTF-8 decoding of the single continuation byte of a two-byte encoding,
rejecting bad continuation markers and overlong encodings. -/
def parseCont1 (b0 : Nat) : List Nat → Option (Char × List Nat)
  | b1 :: t1 =>
    if (0x80 ≤ b1 ∧ b1 < 0xC0) ∧ 0x80 ≤ (b0 - 0xC0) * 64 + (b1 - 0x80) then
      some (Char.ofNat ((b0 - 0xC0) * 64 + (b1 - 0x80)), t1)
    else none
  | [] => none

/-- UTF-8 decoding of the two continuation bytes of a three-byte encoding,
rejecting bad continuation markers, overlong encodings and surrogates. -/
def parseCont2 (b0 : Nat) : List Nat → Option (Char × List Nat)
  | b1 :: b2 :: t2 =>
    if ((0x80 ≤ b1 ∧ b1 < 0xC0) ∧ (0x80 ≤ b2 ∧ b2 < 0xC0)) ∧
       (0x800 ≤ (b0 - 0xE0) * 4096 + (b1 - 0x80) * 64 + (b2 - 0x80) ∧
        ((b0 - 0xE0) * 4096 + (b1 - 0x80) * 64 + (b2 - 0x80) < 0xD800 ∨
         0xE000 ≤ (b0 - 0xE0) * 4096 + (b1 - 0x80) * 64 + (b2 - 0x80))) then
      some (Char.ofNat ((b0 - 0xE0) * 4096 + (b1 - 0x80) * 64 + (b2 - 0x80)), t2)
    else none
  | _ => none

/-- UTF-8 decoding of the three continuation bytes of a four-byte encoding,
rejecting bad continuation markers, overlong and out-of-range encodings. -/
def parseCont3 (b0 : Nat) : List Nat → Option (Char × List Nat)
  | b1 :: b2 :: b3 :: t3 =>
    if ((0x80 ≤ b1 ∧ b1 < 0xC0) ∧ (0x80 ≤ b2 ∧ b2 < 0xC0) ∧
        (0x80 ≤ b3 ∧ b3 < 0xC0)) ∧
       (0x10000 ≤ (b0 - 0xF0) * 262144 + (b1 - 0x80) * 4096 + (b2 - 0x80) * 64 +
          (b3 - 0x80) ∧
        (b0 - 0xF0) * 262144 + (b1 - 0x80) * 4096 + (b2 - 0x80) * 64 +
          (b3 - 0x80) < 0x110000) then
      some (Char.ofNat ((b0 - 0xF0) * 262144 + (b1 - 0x80) * 4096 +
        (b2 - 0x80) * 64 + (b3 - 0x80)), t3)
    else none
  | _ => none

/-- UTF-8 decoding of one unicode scalar value, rejecting malformed,
overlong, surrogate and out-of-range encodings. -/
def parseChar : List Nat → Option (Char × List Nat)
  | [] => none
  | b0 :: t =>
    if b0 < 0x80 then some (Char.ofNat b0, t)
    else if b0 < 0xC0 then none
    else if b0 < 0xE0 then parseCont1 b0 t
    else if b0 < 0xF0 then parseCont2 b0 t
    else if b0 < 0xF8 then parseCont3 b0 t
    else none

/-- UTF-8 decoding of a character sequence from a byte list; the fuel bounds
the number of characters and is instantiated with the byte count, which
always suffices. -/
def parseCharsFuel (fuel : Nat) (l : List Nat) : Option (List Char) :=
  match l with
  | [] => some []
  | b :: t =>
    match fuel with
    | 0 => none
    | fuel + 1 =>
      match parseChar (b :: t) with
      | none => none
      | some (c, r) =>
        match parseCharsFuel fuel r with
        | none => none
        | some cs => some (c :: cs)

/-- Modelled from the spec: canonical (bcs) encoding of a string, the
ULEB128 byte length followed by the UTF-8 bytes. -/
def encodeStr (s : String) : List Nat :=
  encodeUleb (strBytes s).length ++ strBytes s

/-- Modelled from the spec: canonical (bcs) decoding of a string. -/
def parseStr (l : List Nat) : Option (String × List Nat) :=
  match parseUleb l with
  | none => none
  | some (n, r) =>
    if n ≤ r.length then
      match parseCharsFuel n (r.take n) with
      | none => none
      | some cs => some (String.mk cs, r.drop n)
    else none

/-- Concatenation of the encodings of the elements of a list. -/
def concatEnc (enc : α → List Nat) : List α → List Nat
  | [] => []
  | x :: t => enc x ++ concatEnc enc t

/-- Modelled from the spec: canonical (bcs) encoding of a sequence, the
ULEB128 element count followed by the element encodings. -/
def encodeList (enc : α → List Nat) (l : List α) : List Nat :=
  encodeUleb l.length ++ concatEnc enc l

/-- Decoding of exactly n consecutive elements. -/
def parseListN (p : List Nat → Option (α × List Nat)) :
    Nat → List Nat → Option (List α × List Nat)
  | 0, l => some ([], l)
  | n + 1, l =>
    match p l with
    | none => none
    | some (x, r) =>
      match parseListN p n r with
      | none => none
      | some (xs, r2) => some (x :: xs, r2)

/-- Modelled from the spec: canonical (bcs) decoding of a sequence. -/
def parseList (p : List Nat → Option (α × List Nat)) (l : List Nat) :
    Option (List α × List Nat) :=
  match parseUleb l with
  | none => none
  | some (n, r) => parseListN p n r

/-- Modelled from the spec: canonical (bcs) encoding of a variable-length
byte vector. -/
def encodeBytesVec (bs : List Nat) : List Nat := encodeUleb bs.length ++ bs

/-- Modelled from the spec: canonical (bcs) decoding of a variable-length
byte vector. -/
def parseBytesVec (l : List Nat) : Option (List Nat × List Nat) :=
  match parseUleb l with
  | none => none
  | some (n, r) => parseBytesN n r

/-- ValidCryptoMaterial::to_bytes for IdCommitment (zkid.rs lines 364-367):
the canonical encoding of a newtype around [u8; IDC_NUM_BYTES] is the 32 raw
bytes. -/
def IdCommitment.to_bytes (c : IdCommitment) : List Nat := c.bytes

/-- Streaming decoder for an IdCommitment inside a larger value. -/
def parseIdCommitment (l : List Nat) : Option (IdCommitment × List Nat) :=
  match parseBytesN IDC_NUM_BYTES l with
  | none => none
  | some (bs, r) => some (⟨bs⟩, r)

/-- TryFrom<&[u8]> for IdCommitment (zkid.rs lines 369-376): canonical
decoding of the full input, rejecting trailing bytes. -/
def IdCommitment.try_from (l : List Nat) : Option IdCommitment :=
  match parseIdCommitment l with
  | some (c, []) => some c
  | _ => none

/-- ZkIdPublicKey::to_bytes (zkid.rs lines 393-397): canonical encoding of
the issuer string followed by the identity commitment bytes. -/
def ZkIdPublicKey.to_bytes (p : ZkIdPublicKey) : List Nat :=
  encodeStr p.iss ++ p.idc.to_bytes

/-- Streaming decoder for a ZkIdPublicKey. -/
def parseZkIdPublicKey (l : List Nat) : Option (ZkIdPublicKey × List Nat) :=
  match parseStr l with
  | none => none
  | some (iss, r) =>
    match parseIdCommitment r with
    | none => none
    | some (idc, r2) => some (⟨iss, idc⟩, r2)

/-- TryFrom<&[u8]> for ZkIdPublicKey (zkid.rs lines 399-406). -/
def ZkIdPublicKey.try_from (l : List Nat) : Option ZkIdPublicKey :=
  match parseZkIdPublicKey l with
  | some (p, []) => some p
  | _ => none

/-- Canonical encoding of an OpenIdSig: three strings followed by the two
fixed 32-byte arrays (blinder and pepper), stored raw. -/
def OpenIdSig.to_bytes (o : OpenIdSig) : List Nat :=
  encodeStr o.jwt_sig ++ encodeStr o.jwt_payload ++ encodeStr o.uid_key ++
  o.epk_blinder ++ o.pepper.bytes

/-- Streaming decoder for an OpenIdSig. -/
def parseOpenIdSig (l : List Nat) : Option (OpenIdSig × List Nat) :=
  match parseStr l with
  | none => none
  | some (jwt_sig, r1) =>
    match parseStr r1 with
    | none => none
    | some (jwt_payload, r2) =>
      match parseStr r2 with
      | none => none
      | some (uid_key, r3) =>
        match parseBytesN EPK_BLINDER_NUM_BYTES r3 with
        | none => none
        | some (blinder, r4) =>
          match parseBytesN PEPPER_NUM_BYTES r4 with
          | none => none
          | some (pepper, r5) => some (⟨jwt_sig, jwt_payload, uid_key, blinder, ⟨pepper⟩⟩, r5)

/-- Canonical encoding of a Groth16Zkp: three proof-element string lists. -/
def Groth16Zkp.to_bytes (g : Groth16Zkp) : List Nat :=
  encodeList encodeStr g.a ++ encodeList (encodeList encodeStr) g.b ++
  encodeList encodeStr g.c

/-- Streaming decoder for a Groth16Zkp. -/
def parseGroth16Zkp (l : List Nat) : Option (Groth16Zkp × List Nat) :=
  match parseList parseStr l with
  | none => none
  | some (a, r1) =>
    match parseList (parseList parseStr) r1 with
    | none => none
    | some (b, r2) =>
      match parseList parseStr r2 with
      | none => none
      | some (c, r3) => some (⟨a, b, c⟩, r3)

/-- Canonical encoding of the ZkpOrOpenIdSig enum: the ULEB128 variant index
followed by the payload encoding. -/
def ZkpOrOpenIdSig.to_bytes : ZkpOrOpenIdSig → List Nat
  | .groth16Zkp z => encodeUleb 0 ++ z.to_bytes
  | .openIdSig o => encodeUleb 1 ++ o.to_bytes

/-- Streaming decoder for a ZkpOrOpenIdSig. -/
def parseZkpOrOpenIdSig (l : List Nat) : Option (ZkpOrOpenIdSig × List Nat) :=
  match parseUleb l with
  | none => none
  | some (0, r) =>
    match parseGroth16Zkp r with
    | none => none
    | some (z, r2) => some (.groth16Zkp z, r2)
  | some (1, r) =>
    match parseOpenIdSig r with
    | none => none
    | some (o, r2) => some (.openIdSig o, r2)
  | some (_, _) => none

/-- Modelled from the spec: canonical encoding of an ephemeral public key,
carried as a length-prefixed byte vector. -/
def EphemeralPublicKey.enc (e : EphemeralPublicKey) : List Nat :=
  encodeBytesVec e.bytes

/-- Streaming decoder for an EphemeralPublicKey. -/
def parseEphemeralPublicKey (l : List Nat) : Option (EphemeralPublicKey × List Nat) :=
  match parseBytesVec l with
  | none => none
  | some (bs, r) => some (⟨bs⟩, r)

/-- Modelled from the spec: canonical encoding of an ephemeral signature,
carried as a length-prefixed byte vector. -/
def EphemeralSignature.enc (e : EphemeralSignature) : List Nat :=
  encodeBytesVec e.bytes

/-- Streaming decoder for an EphemeralSignature. -/
def parseEphemeralSignature (l : List Nat) : Option (EphemeralSignature × List Nat) :=
  match parseBytesVec l with
  | none => none
  | some (bs, r) => some (⟨bs⟩, r)

/-- ValidCryptoMaterial::to_bytes for ZkIdSignature (zkid.rs lines 284-288):
canonical encoding of the five fields in declaration order. -/
def ZkIdSignature.to_bytes (s : ZkIdSignature) : List Nat :=
  s.sig.to_bytes ++ encodeStr s.jwt_header ++ leBytes 8 s.exp_timestamp_secs ++
  s.ephemeral_pubkey.enc ++ s.ephemeral_signature.enc

/-- Streaming decoder for a ZkIdSignature. -/
def parseZkIdSignature (l : List Nat) : Option (ZkIdSignature × List Nat) :=
  match parseZkpOrOpenIdSig l with
  | none => none
  | some (sg, r1) =>
    match parseStr r1 with
    | none => none
    | some (jwt_header, r2) =>
      match parseU64 r2 with
      | none => none
      | some (exp, r3) =>
        match parseEphemeralPublicKey r3 with
        | none => none
        | some (epk, r4) =>
          match parseEphemeralSignature r4 with
          | none => none
          | some (esig, r5) => some (⟨sg, jwt_header, exp, epk, esig⟩, r5)

/-- TryFrom<&[u8]> for ZkIdSignature (zkid.rs lines 275-282). -/
def ZkIdSignature.try_from (l : List Nat) : Option ZkIdSignature :=
  match parseZkIdSignature l with
  | some (s, []) => some s
  | _ => none

/-- Well-formedness of a Pepper value: the byte array has its fixed length. -/
def Pepper.WF (p : Pepper) : Prop := p.bytes.length = PEPPER_NUM_BYTES

/-- Well-formedness of an IdCommitment value: the byte array has its fixed
length. -/
def IdCommitment.WF (c : IdCommitment) : Prop := c.bytes.length = IDC_NUM_BYTES

/-- Well-formedness of a ZkIdPublicKey value. -/
def ZkIdPublicKey.WF (p : ZkIdPublicKey) : Prop := p.idc.WF

/-- Well-formedness of an OpenIdSig value: both fixed arrays have their
declared lengths. -/
def OpenIdSig.WF (o : OpenIdSig) : Prop :=
  o.epk_blinder.length = EPK_BLINDER_NUM_BYTES ∧ o.pepper.WF

/-- Well-formedness of a ZkpOrOpenIdSig value. -/
def ZkpOrOpenIdSig.WF : ZkpOrOpenIdSig → Prop
  | .groth16Zkp _ => True
  | .openIdSig o => o.WF

/-- Well-formedness of a ZkIdSignature value: the payload is well formed and
the expiry timestamp fits in a u64. -/
def ZkIdSignature.WF (s : ZkIdSignature) : Prop :=
  s.sig.WF ∧ s.exp_timestamp_secs < U64_MOD

/-- Selector the spec describes for authenticator extraction: a slot
contributes exactly when both the public-key and the signature variant tags
are the zkID kind. -/
def zkid_pair (a : SingleKeyAuthenticator) : Option (ZkIdPublicKey × ZkIdSignature) :=
  match a.public_key, a.signature with
  | .zkId public_key, .zkId signature => some (public_key, signature)
  | _, _ => none

theorem foldl_zkid (auths : List SingleKeyAuthenticator)
    (acc : List (ZkIdPublicKey × ZkIdSignature)) :
    auths.foldl (fun acc a =>
      match a.public_key, a.signature with
      | .zkId public_key, .zkId signature => acc ++ [(public_key, signature)]
      | _, _ => acc) acc = acc ++ auths.filterMap zkid_pair := by
  induction auths generalizing acc with
  | nil => simp
  | cons a t ih =>
    simp only [List.foldl_cons, List.filterMap_cons]
    rcases a with ⟨apk, asig⟩
    cases apk <;> cases asig <;> simp [zkid_pair, ih]

/-- Claim C3: verify_expiry fails with the expiry error exactly when the
current time is strictly later than exp_timestamp_secs once both are
converted to comparable (microsecond) timestamps, and succeeds when they
are equal. -/
theorem claim_C3 (s : ZkIdSignature) (ct : CurrentTimeMicroseconds) :
    (s.verify_expiry ct = .error .expired ↔
      seconds_from_epoch s.exp_timestamp_secs < ct.microseconds)
    ∧ (ct.microseconds = seconds_from_epoch s.exp_timestamp_secs →
      s.verify_expiry ct = .ok ()) := by
  unfold ZkIdSignature.verify_expiry
  refine ⟨?_, ?_⟩
  · by_cases h : ct.microseconds > seconds_from_epoch s.exp_timestamp_secs
    · simp only [if_pos h]
      simpa using h
    · simp only [if_neg h]
      constructor
      · intro hc
        simp at hc
      · intro hlt
        exact absurd hlt h
  · intro heq
    have h : ¬ ct.microseconds > seconds_from_epoch s.exp_timestamp_secs := by omega
    simp only [if_neg h]

/-- Claim C10: verify_expiry compares at microsecond granularity; it
succeeds exactly when the block time in microseconds is at most
exp_timestamp_secs times one million, so one extra microsecond past the
expiry second is rejected. -/
theorem claim_C10 (s : ZkIdSignature) (ct : CurrentTimeMicroseconds) :
    s.verify_expiry ct = .ok () ↔ ct.microseconds ≤ s.exp_timestamp_secs * 1000000 := by
  unfold ZkIdSignature.verify_expiry seconds_from_epoch
  by_cases h : ct.microseconds > s.exp_timestamp_secs * 1000000
  · simp only [if_pos h]
    constructor
    · intro hc
      simp at hc
    · intro hle
      omega
  · simp only [if_neg h]
    constructor
    · intro _
      omega
    · intro _
      trivial

/-- Claim C4: resolving the uid value with uid_key "email" succeeds exactly
when the email_verified claim is present and is the JSON boolean true or
the JSON string "true", and the email claim is present; the result is then
the email claim value. -/
theorem claim_C4 (c : Claims) (v : String) :
    c.get_uid_val "email" = .ok v ↔
      ((c.oidc_claims.email_verified = some (Json.bool true) ∨
        c.oidc_claims.email_verified = some (Json.str "true")) ∧
       c.oidc_claims.email = some v) := by
  unfold Claims.get_uid_val
  cases hev : c.oidc_claims.email_verified with
  | none => simp
  | some j =>
    cases j with
    | bool b =>
      cases b with
      | true =>
        cases hem : c.oidc_claims.email <;>
          simp [Json.as_bool, Json.as_str, hem]
      | false => simp [Json.as_bool, Json.as_str]
    | str s =>
      by_cases hs : s = "true"
      · subst hs
        cases hem : c.oidc_claims.email <;>
          simp [Json.as_bool, Json.as_str, hem]
      · simp [Json.as_bool, Json.as_str, hs]
    | null => simp [Json.as_bool, Json.as_str]
    | num n => simp [Json.as_bool, Json.as_str]
    | arr l => simp [Json.as_bool, Json.as_str]
    | obj l => simp [Json.as_bool, Json.as_str]

/-- Claim C8: get_zkid_authenticators returns exactly the pairs from slots
whose public-key and signature variant tags are both the zkID kind, in slot
order, and the empty sequence when no slot matches. -/
theorem claim_C8 (auths : List SingleKeyAuthenticator) :
    get_zkid_authenticators auths = auths.filterMap zkid_pair ∧
    ((∀ a ∈ auths, zkid_pair a = none) → get_zkid_authenticators auths = []) := by
  have h1 : get_zkid_authenticators auths = auths.filterMap zkid_pair := by
    unfold get_zkid_authenticators
    simpa using foldl_zkid auths []
  refine ⟨h1, fun h => ?_⟩
  rw [h1]
  exact List.filterMap_eq_nil_iff.mpr h

/-- Witness for claim C8 at a concrete slot list with no zkID slot. -/
theorem claim_C8_witness :
    get_zkid_authenticators [⟨.otherVariant 0, .otherVariant 0⟩] = [] :=
  (claim_C8 [⟨.otherVariant 0, .otherVariant 0⟩]).2 (by
    intro a ha
    rw [List.mem_singleton.mp ha]
    rfl)

theorem get_uid_val_ne_horizon (c : Claims) (k : String) :
    c.get_uid_val k ≠ Except.error VerifyErr.expiryHorizon := by
  intro h
  unfold Claims.get_uid_val at h
  repeat' split at h
  all_goals simp_all [ite_eq_iff]

theorem verify_jwt_claims_horizon_iff (hashFn : List Nat → Nat) (s : OpenIdSig)
    (claims : Claims) (exp_timestamp_secs : Nat) (epk : EphemeralPublicKey)
    (pk : ZkIdPublicKey) :
    s.verify_jwt_claims hashFn claims exp_timestamp_secs epk pk =
      .error .expiryHorizon ↔
    (claims.oidc_claims.iat + MAX_EXPIRY_HORIZON_SECS) % U64_MOD ≤ exp_timestamp_secs := by
  simp only [OpenIdSig.verify_jwt_claims, seconds_from_epoch]
  by_cases hlt : exp_timestamp_secs * 1000000 <
      ((claims.oidc_claims.iat + MAX_EXPIRY_HORIZON_SECS) % U64_MOD) * 1000000
  · rw [if_pos hlt]
    constructor
    · intro h
      exfalso
      repeat' split at h
      all_goals simp_all [get_uid_val_ne_horizon]
    · intro hge
      exfalso
      omega
  · rw [if_neg hlt]
    simp only [iff_true_intro rfl, true_iff]
    omega

/-- Claim C1 (amended): in the non-overflowing regime the expiry-horizon
check of verify_jwt_claims fails exactly when exp_timestamp_secs is at
least iat + MAX_EXPIRY_HORIZON_SECS; the boundary is exclusive, so equality
already fails. -/
theorem claim_C1 (hashFn : List Nat → Nat) (s : OpenIdSig) (claims : Claims)
    (exp_timestamp_secs : Nat) (epk : EphemeralPublicKey) (pk : ZkIdPublicKey)
    (hof : claims.oidc_claims.iat + MAX_EXPIRY_HORIZON_SECS < U64_MOD) :
    s.verify_jwt_claims hashFn claims exp_timestamp_secs epk pk =
      .error .expiryHorizon ↔
    claims.oidc_claims.iat + MAX_EXPIRY_HORIZON_SECS ≤ exp_timestamp_secs := by
  rw [verify_jwt_claims_horizon_iff, Nat.mod_eq_of_lt hof]

/-- Counterexample to claim C1 as stated: with iat = 1000 and
exp_timestamp_secs = iat + MAX_EXPIRY_HORIZON_SECS, the call does not pass
the horizon check but fails with the expiry-horizon error. -/
theorem claim_C1_counterexample :
    OpenIdSig.verify_jwt_claims (fun _ => 0)
      ⟨"", "", "sub", List.replicate 32 0, ⟨List.replicate 32 0⟩⟩
      ⟨⟨"iss0", "aud0", "sub0", "nonce0", 1000, none, none⟩, []⟩
      (1000 + MAX_EXPIRY_HORIZON_SECS) ⟨[0]⟩ ⟨"iss0", ⟨List.replicate 32 0⟩⟩ =
    Except.error VerifyErr.expiryHorizon := by
  rfl

/-- Witness for claim C1 (amended) at the boundary input. -/
theorem claim_C1_witness :
    OpenIdSig.verify_jwt_claims (fun _ => 0)
      ⟨"", "", "sub", List.replicate 32 0, ⟨List.replicate 32 0⟩⟩
      ⟨⟨"iss0", "aud0", "sub0", "nonce0", 1000, none, none⟩, []⟩
      (1000 + MAX_EXPIRY_HORIZON_SECS) ⟨[0]⟩ ⟨"iss0", ⟨List.replicate 32 0⟩⟩ =
      Except.error VerifyErr.expiryHorizon ↔
    1000 + MAX_EXPIRY_HORIZON_SECS ≤ 1000 + MAX_EXPIRY_HORIZON_SECS :=
  claim_C1 (fun _ => 0)
    ⟨"", "", "sub", List.replicate 32 0, ⟨List.replicate 32 0⟩⟩
    ⟨⟨"iss0", "aud0", "sub0", "nonce0", 1000, none, none⟩, []⟩
    (1000 + MAX_EXPIRY_HORIZON_SECS) ⟨[0]⟩ ⟨"iss0", ⟨List.replicate 32 0⟩⟩
    (by decide)

/-- Claim C9: the u64 addition iat + MAX_EXPIRY_HORIZON_SECS in
verify_jwt_claims is unguarded; below u64::MAX - MAX_EXPIRY_HORIZON_SECS
the sum is exact and the horizon check compares against it, above that
bound the sum wraps modulo 2^64 and the horizon check compares against the
wrapped value. -/
theorem claim_C9 (hashFn : List Nat → Nat) (s : OpenIdSig) (claims : Claims)
    (exp_timestamp_secs : Nat) (epk : EphemeralPublicKey) (pk : ZkIdPublicKey) :
    (claims.oidc_claims.iat ≤ U64_MOD - 1 - MAX_EXPIRY_HORIZON_SECS →
      ((claims.oidc_claims.iat + MAX_EXPIRY_HORIZON_SECS) % U64_MOD =
         claims.oidc_claims.iat + MAX_EXPIRY_HORIZON_SECS ∧
       (s.verify_jwt_claims hashFn claims exp_timestamp_secs epk pk =
          .error .expiryHorizon ↔
        claims.oidc_claims.iat + MAX_EXPIRY_HORIZON_SECS ≤ exp_timestamp_secs)))
    ∧ (U64_MOD - 1 - MAX_EXPIRY_HORIZON_SECS < claims.oidc_claims.iat →
       claims.oidc_claims.iat < U64_MOD →
      ((claims.oidc_claims.iat + MAX_EXPIRY_HORIZON_SECS) % U64_MOD =
         claims.oidc_claims.iat + MAX_EXPIRY_HORIZON_SECS - U64_MOD ∧
       (s.verify_jwt_claims hashFn claims exp_timestamp_secs epk pk =
          .error .expiryHorizon ↔
        claims.oidc_claims.iat + MAX_EXPIRY_HORIZON_SECS - U64_MOD ≤
          exp_timestamp_secs))) := by
  have hU : U64_MOD = 18446744073709551616 := by norm_num [U64_MOD]
  have hH : MAX_EXPIRY_HORIZON_SECS = 1728000000 := rfl
  constructor
  · intro hle
    have hmod : (claims.oidc_claims.iat + MAX_EXPIRY_HORIZON_SECS) % U64_MOD =
        claims.oidc_claims.iat + MAX_EXPIRY_HORIZON_SECS := by
      simp only [hU, hH] at hle ⊢
      omega
    exact ⟨hmod, by rw [verify_jwt_claims_horizon_iff, hmod]⟩
  · intro hgt hlt
    have hmod : (claims.oidc_claims.iat + MAX_EXPIRY_HORIZON_SECS) % U64_MOD =
        claims.oidc_claims.iat + MAX_EXPIRY_HORIZON_SECS - U64_MOD := by
      simp only [hU, hH] at hgt hlt ⊢
      omega
    exact ⟨hmod, by rw [verify_jwt_claims_horizon_iff, hmod]⟩

/-- Witness for claim C9 in the wrapping regime, at iat = u64::MAX. -/
theorem claim_C9_witness :
    (18446744073709551615 + MAX_EXPIRY_HORIZON_SECS) % U64_MOD =
      18446744073709551615 + MAX_EXPIRY_HORIZON_SECS - U64_MOD ∧
    (OpenIdSig.verify_jwt_claims (fun _ => 0)
       ⟨"", "", "sub", List.replicate 32 0, ⟨List.replicate 32 0⟩⟩
       ⟨⟨"iss0", "aud0", "sub0", "nonce0", 18446744073709551615, none, none⟩, []⟩
       18446744073709551615 ⟨[0]⟩ ⟨"iss0", ⟨List.replicate 32 0⟩⟩ =
       Except.error VerifyErr.expiryHorizon ↔
     18446744073709551615 + MAX_EXPIRY_HORIZON_SECS - U64_MOD ≤
       18446744073709551615) :=
  (claim_C9 (fun _ => 0)
    ⟨"", "", "sub", List.replicate 32 0, ⟨List.replicate 32 0⟩⟩
    ⟨⟨"iss0", "aud0", "sub0", "nonce0", 18446744073709551615, none, none⟩, []⟩
    18446744073709551615 ⟨[0]⟩ ⟨"iss0", ⟨List.replicate 32 0⟩⟩).2
    (by decide) (by decide)

/-- Claim C2: verify_jwt_claims returns Ok exactly when all five checks
hold, namely the expiry horizon is respected, the iss claim matches the
public key, the uid_key policy resolves a uid value, the recomputed
identity commitment matches pk.idc, and the recomputed nonce matches the
nonce claim; any single failure yields an error. -/
theorem claim_C2 (hashFn : List Nat → Nat) (s : OpenIdSig) (claims : Claims)
    (exp_timestamp_secs : Nat) (epk : EphemeralPublicKey) (pk : ZkIdPublicKey) :
    s.verify_jwt_claims hashFn claims exp_timestamp_secs epk pk = .ok () ↔
      (seconds_from_epoch exp_timestamp_secs <
         seconds_from_epoch
           ((claims.oidc_claims.iat + MAX_EXPIRY_HORIZON_SECS) % U64_MOD) ∧
       claims.oidc_claims.iss = pk.iss ∧
       (s.uid_key = "sub" ∨ s.uid_key = "email") ∧
       ∃ uid_val, claims.get_uid_val s.uid_key = .ok uid_val ∧
         IdCommitment.new_from_preimage hashFn claims.oidc_claims.aud s.uid_key
           uid_val s.pepper = some pk.idc ∧
         s.reconstruct_oauth_nonce hashFn exp_timestamp_secs epk =
           some claims.oidc_claims.nonce) := by
  simp only [OpenIdSig.verify_jwt_claims, seconds_from_epoch]
  repeat' split <;> simp_all

theorem leBytes_length (k x : Nat) : (leBytes k x).length = k := by
  induction k generalizing x with
  | zero => rfl
  | succ n ih => simp [leBytes, ih]

theorem pad_and_hash_string_eq (hashFn : List Nat → Nat) (s : String) (m : Nat) :
    pad_and_hash_string hashFn s m =
      if (strBytes s).length ≤ m then
        some (hashFn (chunkScalars (strBytes s ++
                List.replicate (m - (strBytes s).length) 0) ++
              [(strBytes s).length % bn254FrOrder]) % bn254FrOrder)
      else none := by
  unfold pad_and_hash_string pad_and_pack_bytes_to_scalars_with_len
  split <;> simp

/-- Claim C5: new_from_preimage hashes each of the three strings into one
field element padded to its 248-byte maximum, packs the pepper into one
field element, applies the multi-input hash to the four elements in the
order (aud, uid_key, uid_val, pepper), serializes the output to a fixed
32-byte little-endian form, and succeeds exactly when every string input
fits its maximum byte length. -/
theorem claim_C5 (hashFn : List Nat → Nat) (aud uid_key uid_val : String)
    (pepper : Pepper) (hp : pepper.bytes.length = PEPPER_NUM_BYTES) :
    ((IdCommitment.new_from_preimage hashFn aud uid_key uid_val pepper).isSome ↔
      (strBytes aud).length ≤ MAX_AUD_VAL_BYTES ∧
      (strBytes uid_key).length ≤ MAX_UID_KEY_BYTES ∧
      (strBytes uid_val).length ≤ MAX_UID_VAL_BYTES)
    ∧ (∀ a k v p, pad_and_hash_string hashFn aud MAX_AUD_VAL_BYTES = some a →
        pad_and_hash_string hashFn uid_key MAX_UID_KEY_BYTES = some k →
        pad_and_hash_string hashFn uid_val MAX_UID_VAL_BYTES = some v →
        pack_bytes_to_one_scalar pepper.bytes = some p →
        IdCommitment.new_from_preimage hashFn aud uid_key uid_val pepper =
          some ⟨leBytes IDC_NUM_BYTES (hashFn [a, k, v, p] % bn254FrOrder)⟩)
    ∧ (∀ c, IdCommitment.new_from_preimage hashFn aud uid_key uid_val pepper =
          some c → c.bytes.length = IDC_NUM_BYTES) := by
  have hpack : pack_bytes_to_one_scalar pepper.bytes =
      some (natFromLe pepper.bytes % bn254FrOrder) := by
    unfold pack_bytes_to_one_scalar
    rw [if_pos (by rw [hp]; rfl)]
  refine ⟨?_, ?_, ?_⟩
  · unfold IdCommitment.new_from_preimage
    rw [pad_and_hash_string_eq, pad_and_hash_string_eq, pad_and_hash_string_eq,
      hpack]
    by_cases h1 : (strBytes aud).length ≤ MAX_AUD_VAL_BYTES <;>
      by_cases h2 : (strBytes uid_key).length ≤ MAX_UID_KEY_BYTES <;>
      by_cases h3 : (strBytes uid_val).length ≤ MAX_UID_VAL_BYTES <;>
      simp [h1, h2, h3]
  · intro a k v p ha hk hv hp2
    unfold IdCommitment.new_from_preimage
    rw [ha, hk, hv, hp2]
    rfl
  · intro c hc
    unfold IdCommitment.new_from_preimage at hc
    rw [pad_and_hash_string_eq, pad_and_hash_string_eq, pad_and_hash_string_eq,
      hpack] at hc
    by_cases h1 : (strBytes aud).length ≤ MAX_AUD_VAL_BYTES <;>
      by_cases h2 : (strBytes uid_key).length ≤ MAX_UID_KEY_BYTES <;>
      by_cases h3 : (strBytes uid_val).length ≤ MAX_UID_VAL_BYTES <;>
      simp [h1, h2, h3] at hc
    rw [← hc]
    exact leBytes_length _ _

/-- Witness for claim C5, evaluating new_from_preimage on concrete inputs. -/
theorem claim_C5_witness :
    (IdCommitment.new_from_preimage (fun _ => 0) "aud0" "sub" "uid0"
      ⟨List.replicate 32 0⟩).isSome :=
  ((claim_C5 (fun _ => 0) "aud0" "sub" "uid0" ⟨List.replicate 32 0⟩
    (by rfl)).1).mpr (by decide)

/-- Claim C6: reconstruct_oauth_nonce packs the ephemeral key bytes into
field elements padded to the 93-byte maximum, appends one field element
carrying exp_timestamp_secs and one packing the blinder, hashes them with
the same multi-input hash, serializes the scalar to 32 little-endian bytes
and base64url-encodes without padding; it succeeds exactly when the
ephemeral key encoding fits 93 bytes. -/
theorem claim_C6 (hashFn : List Nat → Nat) (s : OpenIdSig)
    (exp_timestamp_secs : Nat) (epk : EphemeralPublicKey)
    (hb : s.epk_blinder.length = EPK_BLINDER_NUM_BYTES) :
    ((s.reconstruct_oauth_nonce hashFn exp_timestamp_secs epk).isSome ↔
      epk.to_bytes.length ≤ MAX_EPK_BYTES)
    ∧ (∀ frs bl,
        pad_and_pack_bytes_to_scalars_with_len epk.to_bytes MAX_EPK_BYTES =
          some frs →
        pack_bytes_to_one_scalar s.epk_blinder = some bl →
        s.reconstruct_oauth_nonce hashFn exp_timestamp_secs epk =
          some (String.mk (base64UrlNoPad (leBytes NONCE_NUM_BYTES
            (hashFn (frs ++ [exp_timestamp_secs % bn254FrOrder, bl]) %
              bn254FrOrder))))) := by
  have hpack : pack_bytes_to_one_scalar s.epk_blinder =
      some (natFromLe s.epk_blinder % bn254FrOrder) := by
    unfold pack_bytes_to_one_scalar
    rw [if_pos (by rw [hb]; rfl)]
  refine ⟨?_, ?_⟩
  · unfold OpenIdSig.reconstruct_oauth_nonce pad_and_pack_bytes_to_scalars_with_len
    rw [hpack]
    by_cases h1 : epk.to_bytes.length ≤ MAX_EPK_BYTES <;> simp [h1]
  · intro frs bl hfrs hbl
    unfold OpenIdSig.reconstruct_oauth_nonce
    rw [hfrs, hbl]
    rfl

/-- Witness for claim C6, evaluating reconstruct_oauth_nonce on concrete
inputs. -/
theorem claim_C6_witness :
    (OpenIdSig.reconstruct_oauth_nonce (fun _ => 0)
      ⟨"", "", "sub", List.replicate 32 0, ⟨List.replicate 32 0⟩⟩ 5 ⟨[1]⟩).isSome :=
  ((claim_C6 (fun _ => 0)
    ⟨"", "", "sub", List.replicate 32 0, ⟨List.replicate 32 0⟩⟩ 5 ⟨[1]⟩
    (by rfl)).1).mpr (by decide)

theorem take_len_append {α : Type} (a b : List α) : (a ++ b).take a.length = a := by
  induction a with
  | nil => rfl
  | cons x t ih => simp [ih]

theorem drop_len_append {α : Type} (a b : List α) : (a ++ b).drop a.length = b := by
  induction a with
  | nil => rfl
  | cons x t ih => simp [ih]

theorem parseBytesN_append (n : Nat) (bs : List Nat) (h : bs.length = n)
    (r : List Nat) : parseBytesN n (bs ++ r) = some (bs, r) := by
  subst h
  unfold parseBytesN
  rw [if_pos (by simp), take_len_append, drop_len_append]

theorem parseUleb_append (n : Nat) (r : List Nat) :
    parseUleb (encodeUleb n ++ r) = some (n, r) := by
  induction n using Nat.strong_induction_on with
  | _ n ih =>
    unfold encodeUleb
    split
    · next h => simp [parseUleb, h]
    · next h =>
      simp only [List.cons_append, List.append_eq, parseUleb]
      rw [if_neg (by omega), ih (n / 128) (by omega)]
      simp only [Option.some.injEq, Prod.mk.injEq]
      exact ⟨by omega, trivial⟩

theorem natFromLe_leBytes (k x : Nat) : natFromLe (leBytes k x) = x % 256 ^ k := by
  induction k generalizing x with
  | zero => simp [leBytes, natFromLe, Nat.mod_one]
  | succ n ih =>
    simp only [leBytes, natFromLe, ih]
    rw [show (256 : Nat) ^ (n + 1) = 256 * 256 ^ n by ring, Nat.mod_mul]

theorem parseU64_append (n : Nat) (h : n < U64_MOD) (r : List Nat) :
    parseU64 (leBytes 8 n ++ r) = some (n, r) := by
  unfold parseU64
  rw [parseBytesN_append 8 _ (leBytes_length 8 n)]
  have h2 : n < 256 ^ 8 := by
    have e2 : (256 : Nat) ^ 8 = 18446744073709551616 := by norm_num
    have e1 : U64_MOD = 18446744073709551616 := by norm_num [U64_MOD]
    omega
  simp only [natFromLe_leBytes]
  rw [Nat.mod_eq_of_lt h2]

theorem encodeChar_ne_nil (c : Char) : encodeChar c ≠ [] := by
  simp only [encodeChar]
  split_ifs <;> simp

theorem length_le_utf8Enc (cs : List Char) : cs.length ≤ (utf8Enc cs).length := by
  induction cs with
  | nil => simp [utf8Enc]
  | cons c t ih =>
    simp only [utf8Enc, List.length_append, List.length_cons]
    have h1 : 1 ≤ (encodeChar c).length := by
      cases hE : encodeChar c with
      | nil => exact absurd hE (encodeChar_ne_nil c)
      | cons y ys => simp
    omega

theorem parseChar_append (c : Char) (r : List Nat) :
    parseChar (encodeChar c ++ r) = some (c, r) := by
  have hv : c.toNat < 55296 ∨ (57343 < c.toNat ∧ c.toNat < 1114112) := c.valid
  simp only [encodeChar]
  by_cases h1 : c.toNat < 0x80
  · rw [if_pos h1]
    simp [parseChar, h1, Char.ofNat_toNat]
  · rw [if_neg h1]
    by_cases h2 : c.toNat < 0x800
    · rw [if_pos h2]
      simp only [List.cons_append, parseChar]
      rw [if_neg (by omega), if_neg (by omega), if_pos (by omega)]
      simp only [parseCont1]
      rw [if_pos (by omega)]
      have hval : (0xC0 + c.toNat / 64 - 0xC0) * 64 + (0x80 + c.toNat % 64 - 0x80) =
          c.toNat := by omega
      rw [hval, Char.ofNat_toNat]
      rfl
    · rw [if_neg h2]
      by_cases h3 : c.toNat < 0x10000
      · rw [if_pos h3]
        simp only [List.cons_append, parseChar]
        rw [if_neg (by omega), if_neg (by omega), if_neg (by omega),
          if_pos (by omega)]
        simp only [parseCont2]
        rw [if_pos (by omega)]
        have hval : (0xE0 + c.toNat / 4096 - 0xE0) * 4096 +
            (0x80 + c.toNat / 64 % 64 - 0x80) * 64 + (0x80 + c.toNat % 64 - 0x80) =
            c.toNat := by omega
        rw [hval, Char.ofNat_toNat]
        rfl
      · rw [if_neg h3]
        simp only [List.cons_append, parseChar]
        rw [if_neg (by omega), if_neg (by omega), if_neg (by omega),
          if_neg (by omega), if_pos (by omega)]
        simp only [parseCont3]
        rw [if_pos (by omega)]
        have hval : (0xF0 + c.toNat / 262144 - 0xF0) * 262144 +
            (0x80 + c.toNat / 4096 % 64 - 0x80) * 4096 +
            (0x80 + c.toNat / 64 % 64 - 0x80) * 64 + (0x80 + c.toNat % 64 - 0x80) =
            c.toNat := by omega
        rw [hval, Char.ofNat_toNat]
        rfl

theorem parseCharsFuel_utf8 (cs : List Char) : ∀ fuel, cs.length ≤ fuel →
    parseCharsFuel fuel (utf8Enc cs) = some cs := by
  induction cs with
  | nil =>
    intro fuel _
    cases fuel <;> rfl
  | cons c t ih =>
    intro fuel hlen
    cases fuel with
    | zero => simp at hlen
    | succ f =>
      obtain ⟨b, bt, hbt⟩ : ∃ b bt, encodeChar c = b :: bt := by
        cases hE : encodeChar c with
        | nil => exact absurd hE (encodeChar_ne_nil c)
        | cons b bt => exact ⟨b, bt, rfl⟩
      have hcons : utf8Enc (c :: t) = b :: (bt ++ utf8Enc t) := by
        show encodeChar c ++ utf8Enc t = _
        rw [hbt]
        rfl
      rw [hcons]
      have hstep : parseCharsFuel (f + 1) (b :: (bt ++ utf8Enc t)) =
          match parseChar (b :: (bt ++ utf8Enc t)) with
          | none => none
          | some (c2, r) =>
            match parseCharsFuel f r with
            | none => none
            | some cs2 => some (c2 :: cs2) := rfl
      rw [hstep]
      have hp : parseChar (b :: (bt ++ utf8Enc t)) = some (c, utf8Enc t) := by
        have : b :: (bt ++ utf8Enc t) = encodeChar c ++ utf8Enc t := by
          rw [hbt]
          rfl
        rw [this]
        exact parseChar_append c (utf8Enc t)
      simp only [hp, ih f (by simp at hlen; omega)]

theorem parseStr_append (s : String) (r : List Nat) :
    parseStr (encodeStr s ++ r) = some (s, r) := by
  simp only [parseStr, encodeStr, strBytes, List.append_assoc, parseUleb_append]
  rw [if_pos (by simp), take_len_append, drop_len_append,
    parseCharsFuel_utf8 s.data _ (length_le_utf8Enc s.data)]

theorem parseListN_append {α : Type} (p : List Nat → Option (α × List Nat))
    (enc : α → List Nat) (hp : ∀ x r, p (enc x ++ r) = some (x, r)) :
    ∀ (xs : List α) (r : List Nat),
      parseListN p xs.length (concatEnc enc xs ++ r) = some (xs, r) := by
  intro xs
  induction xs with
  | nil => intro r; rfl
  | cons x t ih =>
    intro r
    show parseListN p (t.length + 1) ((enc x ++ concatEnc enc t) ++ r) = _
    rw [List.append_assoc]
    have hstep : parseListN p (t.length + 1) (enc x ++ (concatEnc enc t ++ r)) =
        match p (enc x ++ (concatEnc enc t ++ r)) with
        | none => none
        | some (y, r1) =>
          match parseListN p t.length r1 with
          | none => none
          | some (ys, r2) => some (y :: ys, r2) := rfl
    rw [hstep]
    simp only [hp, ih]

theorem parseList_append {α : Type} (p : List Nat → Option (α × List Nat))
    (enc : α → List Nat) (hp : ∀ x r, p (enc x ++ r) = some (x, r))
    (xs : List α) (r : List Nat) :
    parseList p (encodeList enc xs ++ r) = some (xs, r) := by
  simp only [parseList, encodeList, List.append_assoc, parseUleb_append]
  exact parseListN_append p enc hp xs r

theorem parseBytesVec_append (bs r : List Nat) :
    parseBytesVec (encodeBytesVec bs ++ r) = some (bs, r) := by
  simp only [parseBytesVec, encodeBytesVec, List.append_assoc, parseUleb_append]
  exact parseBytesN_append _ _ rfl r

theorem parseIdCommitment_append (c : IdCommitment) (hc : c.WF) (r : List Nat) :
    parseIdCommitment (c.to_bytes ++ r) = some (c, r) := by
  simp only [parseIdCommitment, IdCommitment.to_bytes,
    parseBytesN_append IDC_NUM_BYTES c.bytes hc]

theorem parseZkIdPublicKey_append (p : ZkIdPublicKey) (hp : p.WF) (r : List Nat) :
    parseZkIdPublicKey (p.to_bytes ++ r) = some (p, r) := by
  simp only [parseZkIdPublicKey, ZkIdPublicKey.to_bytes, List.append_assoc,
    parseStr_append, parseIdCommitment_append p.idc hp]

theorem parseOpenIdSig_append (o : OpenIdSig) (ho : o.WF) (r : List Nat) :
    parseOpenIdSig (o.to_bytes ++ r) = some (o, r) := by
  simp only [parseOpenIdSig, OpenIdSig.to_bytes, List.append_assoc,
    parseStr_append, parseBytesN_append EPK_BLINDER_NUM_BYTES o.epk_blinder ho.1,
    parseBytesN_append PEPPER_NUM_BYTES o.pepper.bytes ho.2]

theorem parseGroth16Zkp_append (g : Groth16Zkp) (r : List Nat) :
    parseGroth16Zkp (g.to_bytes ++ r) = some (g, r) := by
  simp only [parseGroth16Zkp, Groth16Zkp.to_bytes, List.append_assoc,
    parseList_append parseStr encodeStr parseStr_append,
    parseList_append (parseList parseStr) (encodeList encodeStr)
      (parseList_append parseStr encodeStr parseStr_append)]

theorem parseZkpOrOpenIdSig_append (z : ZkpOrOpenIdSig) (hz : z.WF)
    (r : List Nat) : parseZkpOrOpenIdSig (z.to_bytes ++ r) = some (z, r) := by
  cases z with
  | groth16Zkp g =>
    simp only [parseZkpOrOpenIdSig, ZkpOrOpenIdSig.to_bytes, List.append_assoc,
      parseUleb_append, parseGroth16Zkp_append g r]
  | openIdSig o =>
    simp only [parseZkpOrOpenIdSig, ZkpOrOpenIdSig.to_bytes, List.append_assoc,
      parseUleb_append, parseOpenIdSig_append o hz r]

theorem parseEphemeralPublicKey_append (e : EphemeralPublicKey) (r : List Nat) :
    parseEphemeralPublicKey (e.enc ++ r) = some (e, r) := by
  simp only [parseEphemeralPublicKey, EphemeralPublicKey.enc, parseBytesVec_append]

theorem parseEphemeralSignature_append (e : EphemeralSignature) (r : List Nat) :
    parseEphemeralSignature (e.enc ++ r) = some (e, r) := by
  simp only [parseEphemeralSignature, EphemeralSignature.enc, parseBytesVec_append]

theorem parseZkIdSignature_append (s : ZkIdSignature) (hs : s.WF) (r : List Nat) :
    parseZkIdSignature (s.to_bytes ++ r) = some (s, r) := by
  simp only [parseZkIdSignature, ZkIdSignature.to_bytes, List.append_assoc,
    parseZkpOrOpenIdSig_append s.sig hs.1, parseStr_append,
    parseU64_append s.exp_timestamp_secs hs.2,
    parseEphemeralPublicKey_append, parseEphemeralSignature_append]

/-- Claim C7: canonically encoding a ZkIdPublicKey, ZkIdSignature or
IdCommitment with to_bytes and decoding the result with try_from yields the
original value. -/
theorem claim_C7 :
    (∀ p : ZkIdPublicKey, p.WF → ZkIdPublicKey.try_from p.to_bytes = some p)
    ∧ (∀ s : ZkIdSignature, s.WF → ZkIdSignature.try_from s.to_bytes = some s)
    ∧ (∀ c : IdCommitment, c.WF → IdCommitment.try_from c.to_bytes = some c) := by
  refine ⟨?_, ?_, ?_⟩
  · intro p hp
    have h := parseZkIdPublicKey_append p hp []
    rw [List.append_nil] at h
    unfold ZkIdPublicKey.try_from
    rw [h]
  · intro s hs
    have h := parseZkIdSignature_append s hs []
    rw [List.append_nil] at h
    unfold ZkIdSignature.try_from
    rw [h]
  · intro c hc
    have h := parseIdCommitment_append c hc []
    rw [List.append_nil] at h
    unfold IdCommitment.try_from
    rw [h]

/-- Witness for claim C7 on concrete well-formed values of the three types. -/
theorem claim_C7_witness :
    ZkIdPublicKey.try_from (ZkIdPublicKey.to_bytes
      ⟨"iss0", ⟨List.replicate 32 0⟩⟩) = some ⟨"iss0", ⟨List.replicate 32 0⟩⟩ ∧
    ZkIdSignature.try_from (ZkIdSignature.to_bytes
      ⟨.openIdSig ⟨"a", "b", "sub", List.replicate 32 0, ⟨List.replicate 32 0⟩⟩,
       "hdr", 123, ⟨[1, 2]⟩, ⟨[3]⟩⟩) =
      some ⟨.openIdSig ⟨"a", "b", "sub", List.replicate 32 0, ⟨List.replicate 32 0⟩⟩,
       "hdr", 123, ⟨[1, 2]⟩, ⟨[3]⟩⟩ ∧
    IdCommitment.try_from (IdCommitment.to_bytes ⟨List.replicate 32 0⟩) =
      some ⟨List.replicate 32 0⟩ :=
  ⟨claim_C7.1 _ rfl, claim_C7.2.1 _ ⟨⟨rfl, rfl⟩, by decide⟩, claim_C7.2.2 _ rfl⟩

/-- Witness for claim C3 at the boundary where the block time equals the
expiry timestamp. -/
theorem claim_C3_witness :
    ZkIdSignature.verify_expiry
      ⟨.openIdSig ⟨"", "", "sub", List.replicate 32 0, ⟨List.replicate 32 0⟩⟩,
       "hdr", 7, ⟨[]⟩, ⟨[]⟩⟩ ⟨7000000⟩ = .ok () :=
  (claim_C3
    ⟨.openIdSig ⟨"", "", "sub", List.replicate 32 0, ⟨List.replicate 32 0⟩⟩,
     "hdr", 7, ⟨[]⟩, ⟨[]⟩⟩ ⟨7000000⟩).2 (by decide)
